import Mathlib

/-!
Shallow embedding of the hookline repository's approval rendezvous,
debounce engine, cron scheduler and durable state layer
(src/notify/approval.py, src/notify/state.py, src/hookline/debounce.py,
src/hookline/scheduler.py), together with theorems settling the frozen
claims about the natural-language specification.

Machine conventions: wall-clock timestamps are natural numbers of seconds
since the Unix epoch (Python uses floats; sub-second precision is
irrelevant to every claimed property).  File-system and network effects
are passed in explicitly as environment values, and each modelled
function returns the effects it performs (files written, audit records
appended, pipe signals sent) alongside its result.
-/

namespace Hookline

/-! ## Python string primitives used by the embedded code

These re-implement the handful of string operations the source relies on
as structural recursions over the character list, so every modelled
function evaluates on concrete inputs. -/

/-- Accumulating helper for `pySplit`: tokens of non-whitespace runs. -/
def pyWordsAux : List Char → List Char → List (List Char)
  | [], cur => if cur = [] then [] else [cur.reverse]
  | c :: rest, cur =>
      if c.isWhitespace then
        if cur = [] then pyWordsAux rest []
        else cur.reverse :: pyWordsAux rest []
      else pyWordsAux rest (c :: cur)

/-- `str.split()` with no arguments: split on runs of whitespace and drop
empty pieces (this already subsumes the `.strip()` the source applies
first). -/
def pySplit (s : String) : List String :=
  (pyWordsAux s.data []).map String.mk

/-- Accumulating helper for `splitOnChar`. -/
def splitChAux (sep : Char) : List Char → List Char → List (List Char)
  | [], cur => [cur.reverse]
  | c :: rest, cur =>
      if c = sep then cur.reverse :: splitChAux sep rest []
      else splitChAux sep rest (c :: cur)

/-- `str.split(sep)` for a one-character separator (keeps empty pieces,
like Python). -/
def splitOnChar (sep : Char) (s : String) : List String :=
  (splitChAux sep s.data []).map String.mk

/-- Join with a separator (`sep.join(parts)`). -/
def joinWith (sep : String) : List String → String
  | [] => ""
  | [x] => x
  | x :: xs => x ++ sep ++ joinWith sep xs

/-- `s.split(sep, 1)` for a one-character separator: the part before the
first occurrence and the remainder after it (`none` if absent). -/
def splitFirst (sep : Char) (s : String) : String × Option String :=
  match splitOnChar sep s with
  | [] => ("", none)
  | [h] => (h, none)
  | h :: t => (h, some (joinWith (String.mk [sep]) t))

/-- `str.strip()`: drop surrounding whitespace. -/
def pyStrip (s : String) : String :=
  ⟨((s.data.dropWhile Char.isWhitespace).reverse.dropWhile
      Char.isWhitespace).reverse⟩

/-- Decimal digits to a natural number. -/
def digitsToNat : List Char → Nat → Nat
  | [], acc => acc
  | c :: rest, acc => digitsToNat rest (acc * 10 + (c.toNat - 48))

/-- Python `int(s)`: strips surrounding whitespace, accepts an optional
sign followed by at least one decimal digit, raises `ValueError`
otherwise (modelled as `none`). -/
def pyInt (s : String) : Option Int :=
  let t := (pyStrip s).data
  let signed : Int × List Char :=
    match t with
    | '-' :: rest => (-1, rest)
    | '+' :: rest => (1, rest)
    | _ => (1, t)
  if signed.2 ≠ [] ∧ signed.2.all Char.isDigit then
    some (signed.1 * (digitsToNat signed.2 0 : Int))
  else none

/-- `pre.isPrefixOf s` on strings (`str.startswith`). -/
def strStartsWith (s pre : String) : Bool := pre.data.isPrefixOf s.data

/-- Fuel-driven single-pattern replacement; the fuel bounds the number of
characters consumed, so `s.length` is always enough for a non-empty
pattern. -/
def replaceFuel (pat rep : List Char) : Nat → List Char → List Char
  | _, [] => []
  | 0, l => l
  | n + 1, c :: rest =>
      if pat.isPrefixOf (c :: rest) then
        rep ++ replaceFuel pat rep n ((c :: rest).drop pat.length)
      else c :: replaceFuel pat rep n rest

/-- `str.replace(pat, rep)` (the source only uses non-empty patterns). -/
def strReplace (s pat rep : String) : String :=
  ⟨replaceFuel pat.data rep.data s.data.length s.data⟩

/-- Python string `<` (lexicographic by code point). -/
def chLt : List Char → List Char → Bool
  | [], [] => false
  | [], _ :: _ => true
  | _ :: _, [] => false
  | a :: as, b :: bs =>
      if a.val < b.val then true
      else if b.val < a.val then false
      else chLt as bs

/-- Insert into a sorted list (ascending, stable). -/
def insertSorted (x : String) : List String → List String
  | [] => [x]
  | y :: ys => if chLt y.data x.data then y :: insertSorted x ys else x :: y :: ys

/-- Python `sorted` on strings. -/
def pySorted : List String → List String
  | [] => []
  | x :: xs => insertSorted x (pySorted xs)

/-- Python `str.title()` restricted to a single lower-case word (the only
shape the embedded code applies it to). -/
def pyTitle (s : String) : String := s.capitalize

/-! ## Association lists standing in for Python dicts keyed by string -/

/-- `d[k] = v` on a dict modelled as an association list: replace the
existing binding or append a new one. -/
def insertAL (k : String) (v : α) : List (String × α) → List (String × α)
  | [] => [(k, v)]
  | (k', v') :: rest =>
      if k' = k then (k, v) :: rest else (k', v') :: insertAL k v rest

/-- `d.get(k)` on a dict modelled as an association list. -/
def lookupAL (k : String) : List (String × α) → Option α
  | [] => none
  | (k', v) :: rest => if k' = k then some v else lookupAL k rest

/-! ## Cron expressions — `CronExpr` in src/hookline/scheduler.py

`_parse_field` returns `None` for `*` (match anything) and otherwise the
set of accepted values, modelled as a `List Int` with membership
semantics.  Errors raised as `ValueError` in Python are modelled as
`Except.error` with the message text. -/

/-- Fuel-driven helper for `pyRange`; the fuel bounds the element count. -/
def pyRangeAux : Nat → Int → Int → Int → List Int
  | 0, _, _, _ => []
  | n + 1, start, stop, step =>
      if start < stop then start :: pyRangeAux n (start + step) stop step else []

/-- `range(start, stop, step)` for a positive step, over `Int`:
`start, start+step, …` while below `stop`. -/
def pyRange (start stop step : Int) : List Int :=
  if step ≤ 0 then [] else pyRangeAux (stop - start).toNat start stop step

/-- One comma-separated part of a cron field: stride `base/step`, range
`lo-hi`, or a single value. -/
def parsePart (minVal maxVal : Int) (part : String) : Except String (List Int) :=
  if (splitOnChar '/' part).length > 1 then
    match splitFirst '/' part with
    | (base, some stepStr) =>
        match (if base = "*" then some minVal else pyInt base), pyInt stepStr with
        | some start, some step =>
            if step ≤ 0 then .error ("Step must be positive: " ++ part)
            else .ok (pyRange start (maxVal + 1) step)
        | _, _ => .error "invalid literal for int()"
    | (_, none) => .error "unreachable split"
  else if (splitOnChar '-' part).length > 1 then
    match splitFirst '-' part with
    | (lo, some hi) =>
        match pyInt lo, pyInt hi with
        | some loInt, some hiInt =>
            if loInt > hiInt then .error ("Invalid range: " ++ part)
            else .ok (pyRange loInt (hiInt + 1) 1)
        | _, _ => .error "invalid literal for int()"
    | (_, none) => .error "unreachable split"
  else
    match pyInt part with
    | some v =>
        if v < minVal ∨ v > maxVal then
          .error ("Value out of range [" ++ toString minVal ++ ", " ++ toString maxVal ++ "]")
        else .ok [v]
    | none => .error "invalid literal for int()"

/-- The loop body of `_parse_field`: accumulate the values of each
comma-separated part in order, failing at the first bad part. -/
def parseParts (minVal maxVal : Int) : List String → Except String (List Int)
  | [] => .ok []
  | p :: ps => do
      let vs ← parsePart minVal maxVal p
      let rest ← parseParts minVal maxVal ps
      return vs ++ rest

/-- `CronExpr._parse_field`: `*` means no constraint; otherwise the union
of the comma-separated parts. -/
def parseField (field : String) (minVal maxVal : Int) :
    Except String (Option (List Int)) :=
  if field = "*" then .ok none
  else (parseParts minVal maxVal (splitOnChar ',' field)).map some

/-- Parsed cron expression: one optional constraint set per field. -/
structure CronExpr where
  minute : Option (List Int)
  hour : Option (List Int)
  dom : Option (List Int)
  month : Option (List Int)
  dow : Option (List Int)
  deriving Repr, DecidableEq

/-- `CronExpr.__init__`: five whitespace-separated fields, each parsed
against its own domain. -/
def cronParse (expr : String) : Except String CronExpr :=
  match pySplit expr with
  | [f0, f1, f2, f3, f4] => do
      let minute ← parseField f0 0 59
      let hour ← parseField f1 0 23
      let dom ← parseField f2 1 31
      let month ← parseField f3 1 12
      let dow ← parseField f4 0 6
      return ⟨minute, hour, dom, month, dow⟩
  | parts =>
      .error ("Cron expression requires 5 fields, got " ++ toString parts.length)

/-- `True` exactly when the parse succeeded. -/
def isOkE : Except ε α → Bool
  | .ok _ => true
  | .error _ => false

/-- Whether a successfully parsed cron expression's minute field contains
`v` (used to exhibit out-of-domain values that parsing accepted). -/
def minuteHas (e : Except String CronExpr) (v : Int) : Bool :=
  match e with
  | .ok c => match c.minute with
    | some vs => decide (v ∈ vs)
    | none => false
  | .error _ => false

/-! ## Civil time — `datetime.fromtimestamp(ts, tz=timezone.utc)`

Timestamps are whole seconds since the Unix epoch.  The civil date is
computed with the standard days-to-Gregorian-date algorithm; `weekday`
follows Python's convention (Monday = 0; 1970-01-01 was a Thursday). -/

/-- Gregorian `(year, month, day)` from days since 1970-01-01. -/
def civilFromDays (z0 : Nat) : Nat × Nat × Nat :=
  let z := z0 + 719468
  let era := z / 146097
  let doe := z % 146097
  let yoe := (doe - doe / 1460 + doe / 36524 - doe / 146096) / 365
  let y := yoe + era * 400
  let doy := doe - (365 * yoe + yoe / 4 - yoe / 100)
  let mp := (5 * doy + 2) / 153
  let d := doy - (153 * mp + 2) / 5 + 1
  let m := if mp < 10 then mp + 3 else mp - 9
  (if m ≤ 2 then y + 1 else y, m, d)

/-- The components of a `datetime` in UTC that the scheduler inspects. -/
structure PyDateTime where
  year : Nat
  month : Nat
  day : Nat
  hour : Nat
  minute : Nat
  weekday : Nat
  deriving Repr, DecidableEq

/-- `datetime.fromtimestamp(ts, tz=timezone.utc)`. -/
def fromTimestamp (ts : Nat) : PyDateTime :=
  let days := ts / 86400
  let secs := ts % 86400
  let ymd := civilFromDays days
  { year := ymd.1, month := ymd.2.1, day := ymd.2.2,
    hour := secs / 3600, minute := secs % 3600 / 60,
    weekday := (days + 3) % 7 }

/-- One field check inside `CronExpr.matches`: `None` matches anything,
otherwise the component must be in the set. -/
def fieldOk (field : Option (List Int)) (v : Int) : Bool :=
  match field with
  | none => true
  | some vs => decide (v ∈ vs)

/-- `CronExpr.matches`: every constrained field must contain the
datetime's corresponding component. -/
def CronExpr.matchesAt (c : CronExpr) (dt : PyDateTime) : Bool :=
  fieldOk c.minute dt.minute && fieldOk c.hour dt.hour &&
  fieldOk c.dom dt.day && fieldOk c.month dt.month &&
  fieldOk c.dow dt.weekday

/-! ## Scheduler — `ScheduledTask` and `tick` in src/hookline/scheduler.py -/

/-- The equality of year/month/day/hour/minute that `should_run` uses to
suppress a second cron fire inside one calendar minute. -/
def sameMinute (d1 d2 : PyDateTime) : Bool :=
  d1.year = d2.year && d1.month = d2.month && d1.day = d2.day &&
  d1.hour = d2.hour && d1.minute = d2.minute

/-- A registered task.  The handler itself is supplied at tick time as an
oracle from task name to "did the handler raise". -/
structure ScheduledTask where
  name : String
  cron_expr : Option CronExpr
  interval_seconds : Option Nat
  last_run : Nat
  deriving Repr, DecidableEq

/-- `ScheduledTask.__init__`: an empty cron string or a zero interval is
falsy in Python and yields no trigger; at least one trigger is required. -/
def mkScheduledTask (name : String) (cron : Option String)
    (interval_minutes : Option Nat) : Except String ScheduledTask := do
  let cronExpr ← match cron with
    | some c => if c = "" then pure none else (cronParse c).map some
    | none => pure none
  let intervalSeconds : Option Nat := match interval_minutes with
    | some m => if m = 0 then none else some (m * 60)
    | none => none
  if cronExpr = none ∧ intervalSeconds = none then
    .error ("Task " ++ name ++ " requires either cron or interval_minutes")
  else
    .ok ⟨name, cronExpr, intervalSeconds, 0⟩

/-- `ScheduledTask.should_run`: a cron task must match the current time
and must not have already fired within the same calendar minute; an
interval task is due when the elapsed time reaches the interval. -/
def ScheduledTask.shouldRun (t : ScheduledTask) (now : PyDateTime)
    (now_ts : Nat) : Bool :=
  match t.cron_expr with
  | some c =>
      if ¬ c.matchesAt now then false
      else if t.last_run > 0 ∧ sameMinute (fromTimestamp t.last_run) now then false
      else true
  | none =>
      match t.interval_seconds with
      | some i => decide ((now_ts : Int) - (t.last_run : Int) ≥ (i : Int))
      | none => false

/-- Hydrate one task's in-memory `last_run` from the persisted map
(`if name in state: task.last_run = state[name]`). -/
def hydrate (state : List (String × Nat)) (t : ScheduledTask) : ScheduledTask :=
  match lookupAL t.name state with
  | some v => { t with last_run := v }
  | none => t

/-- Accumulator of the main `tick` loop: the tasks processed so far (with
updated `last_run`), the state dict, the `ran_any` flag, the names whose
handlers completed, and the names whose handlers were invoked at all. -/
structure TickAcc where
  tasks : List ScheduledTask
  state : List (String × Nat)
  ranAny : Bool
  fired : List String
  attempted : List String
  deriving Repr

/-- The per-task loop of `tick`: a due task's handler is invoked; on
success `last_run` and the state entry advance and `ran_any` is set; an
exception is caught and changes nothing. -/
def tickLoop (now : PyDateTime) (now_ts : Nat) (handlerOk : String → Bool)
    (acc : TickAcc) : List ScheduledTask → TickAcc
  | [] => acc
  | t :: rest =>
      if t.shouldRun now now_ts then
        if handlerOk t.name then
          tickLoop now now_ts handlerOk
            { tasks := acc.tasks ++ [{ t with last_run := now_ts }],
              state := insertAL t.name now_ts acc.state,
              ranAny := true,
              fired := acc.fired ++ [t.name],
              attempted := acc.attempted ++ [t.name] } rest
        else
          tickLoop now now_ts handlerOk
            { acc with tasks := acc.tasks ++ [t],
                       attempted := acc.attempted ++ [t.name] } rest
      else
        tickLoop now now_ts handlerOk { acc with tasks := acc.tasks ++ [t] } rest

/-- Result of one tick: the tasks after the loop, the in-memory state
map, the map written back to disk (`none` when nothing fired), and the
fired/attempted task names. -/
structure TickResult where
  tasks : List ScheduledTask
  state : List (String × Nat)
  saved : Option (List (String × Nat))
  fired : List String
  attempted : List String
  deriving Repr

/-- `tick()`: return early when no tasks are registered; otherwise load
the persisted map, hydrate every task, run the loop against one `now`
snapshot, and save the state iff some task fired.  Python takes `now` and
`now_ts` as two clock reads microseconds apart; the model uses one. -/
def tick (tasks : List ScheduledTask) (persisted : List (String × Nat))
    (now_ts : Nat) (handlerOk : String → Bool) : TickResult :=
  if tasks.isEmpty then ⟨tasks, persisted, none, [], []⟩
  else
    let now := fromTimestamp now_ts
    let hydrated := tasks.map (hydrate persisted)
    let acc := tickLoop now now_ts handlerOk ⟨[], persisted, false, [], []⟩ hydrated
    ⟨acc.tasks, acc.state, if acc.ranAny then some acc.state else none,
      acc.fired, acc.attempted⟩

/-! ## Durable state layer — src/notify/state.py

`_read_state` wraps `json.loads(path.read_text())` in a handler for
exactly `OSError` (file absent or unreadable) and `JSONDecodeError`
(text that is not valid JSON), returning `{}` in each caught case.  A
file whose bytes are not valid UTF-8 makes `read_text` raise
`UnicodeDecodeError` — a `ValueError`, caught by neither clause — so
that exception escapes to the caller.  The outcome of the read is
passed in explicitly, and the escaping exception is modelled as the
`Except.error` result. -/

/-- What the underlying file read, text decode and JSON parse produced.
`badBytes` is non-UTF-8 file content, on which `read_text` raises
`UnicodeDecodeError`. -/
inductive ReadOutcome (δ : Type) where
  | absent : ReadOutcome δ
  | ioError : ReadOutcome δ
  | badBytes : ReadOutcome δ
  | badJson : ReadOutcome δ
  | ok (doc : δ) : ReadOutcome δ
  deriving Repr, DecidableEq

/-- `_read_state`: the parsed document on success, the empty document on
the two caught exception classes, and a propagating exception on
undecodable bytes (the `except` clause names only `OSError` and
`json.JSONDecodeError`). -/
def read_state {δ : Type} (emptyDoc : δ) : ReadOutcome δ → Except String δ
  | .ok doc => .ok doc
  | .absent => .ok emptyDoc
  | .ioError => .ok emptyDoc
  | .badJson => .ok emptyDoc
  | .badBytes => .error "UnicodeDecodeError"

/-! ## Daemon liveness — `_is_serve_running` in src/notify/state.py -/

/-- Environment of `_is_serve_running`: the PID file's content (`none`
when the file does not exist) and whether `os.kill(pid, 0)` succeeds. -/
structure ServeEnv where
  pidFileContent : Option String
  alive : Int → Bool

/-- `_is_serve_running`: returns the boolean answer together with the PID
file's content afterwards (`none` once `unlink` ran).  A non-integer
content raises `ValueError` and a dead process makes `os.kill` raise
`OSError`; both are caught, delete the PID file and answer `false`. -/
def is_serve_running (env : ServeEnv) : Bool × Option String :=
  match env.pidFileContent with
  | none => (false, none)
  | some content =>
      match pyInt (pyStrip content) with
      | none => (false, none)
      | some pid => if env.alive pid then (true, some content) else (false, none)

/-! ## Approval rendezvous — src/notify/approval.py

The hook (`_handle_pre_tool_use`) and the daemon
(`_handle_approval_callback`) communicate through the `_approvals` state
directory — modelled as an association list from approval id to record —
and through a named pipe, whose create/wait/signal outcomes are supplied
by the environment. -/

/-- The `_approvals/{id}.json` document.  The hook writes the identity
fields; the daemon callback later adds `decided_by` and `decision`.
No code path in the repository ever writes a `reason` key, but the hook
reads it back with `.get`, so the field is carried as an `Option`. -/
structure ApprovalRecord where
  approval_id : String
  message_id : Nat
  project : String
  tool_name : String
  pipe_path : String
  created_at : String
  decided_by : Option String
  decision : Option String
  reason : Option String
  deriving Repr, DecidableEq

/-- The dict `_handle_pre_tool_use` persists before waiting. -/
def initialRecord (approval_id : String) (message_id : Nat)
    (project tool_name pipe_path created_at : String) : ApprovalRecord :=
  ⟨approval_id, message_id, project, tool_name, pipe_path, created_at,
    none, none, none⟩

/-- Outcome of `os.mkfifo`. -/
inductive MkfifoResult where
  | ok : MkfifoResult
  | err (msg : String) : MkfifoResult
  deriving Repr, DecidableEq

/-- Everything `_handle_pre_tool_use` observes from its surroundings, in
the order it observes it.  `wait_signal` is the stripped payload read
from the pipe (`none` when `select` timed out); `record_at_wake` is what
`_read_state` returns after the wait, which a concurrently running
daemon may have mutated (`none` stands for the empty dict). -/
structure HookEnv where
  approval_enabled : Bool
  dry_run : Bool
  serve_running : Bool
  project : String
  tool_name : String
  approval_id : String
  mkfifo : MkfifoResult
  send_msg_id : Option Nat
  wait_signal : Option String
  record_at_wake : Option ApprovalRecord
  timestamp : String
  created_at : String

/-- One line of the append-only audit log. -/
structure AuditEntry where
  timestamp : String
  approval_id : String
  project : String
  tool_name : String
  decision : String
  decided_by : String
  reason : String
  deriving Repr, DecidableEq

/-- The JSON object printed by `_output_decision`: the `reason` key is
present only when the reason string is non-empty. -/
structure Emitted where
  decision : String
  reason : Option String
  deriving Repr, DecidableEq

/-- `_output_decision`. -/
def outputDecision (decision : String) (reason : String) : Emitted :=
  ⟨decision, if reason = "" then none else some reason⟩

/-- Observable effects of one `_handle_pre_tool_use` run. -/
structure HookResult where
  output : Option Emitted
  audit : List AuditEntry
  pipe_created : Bool
  waited : Bool
  record_written : Option ApprovalRecord
  cleaned_up : Bool
  deriving Repr, DecidableEq

/-- `_handle_pre_tool_use`: the full decision pipeline of the hook, from
the enablement checks through pipe creation, announcement, the bounded
wait, the audit append, the decision output, and cleanup. -/
def handlePreToolUse (env : HookEnv) : HookResult :=
  if ¬ env.approval_enabled then
    ⟨none, [], false, false, none, false⟩
  else if env.dry_run then
    ⟨some (outputDecision "approve" "dry-run auto-approve"), [], false, false, none, false⟩
  else if ¬ env.serve_running then
    ⟨some (outputDecision "block" "Serve daemon not running"), [], false, false, none, false⟩
  else match env.mkfifo with
  | .err e =>
      ⟨some (outputDecision "block" ("Internal error: " ++ e)), [], false, false, none, false⟩
  | .ok =>
    match env.send_msg_id with
    | none =>
        ⟨some (outputDecision "block" "Failed to send approval request"),
          [], true, false, none, true⟩
    | some msg_id =>
        let record := initialRecord env.approval_id msg_id env.project
          env.tool_name ("_approvals/approval_" ++ env.approval_id) env.created_at
        let decision_raw := env.wait_signal.getD ""
        let decision :=
          if decision_raw = "approve" ∨ decision_raw = "block" then decision_raw
          else "block"
        let reason0 := if decision_raw = "" then "Timed out" else ""
        let user_name :=
          match env.record_at_wake with
          | some rec =>
              match rec.decided_by with
              | some u => if u = "" then "" else u
              | none => ""
          | none => ""
        let reason :=
          match env.record_at_wake with
          | some rec =>
              match rec.reason with
              | some r => if r = "" then reason0 else r
              | none => reason0
          | none => reason0
        let entry : AuditEntry :=
          ⟨env.timestamp, env.approval_id, env.project, env.tool_name,
            decision, user_name, reason⟩
        ⟨some (outputDecision decision reason), [entry], true, true,
          some record, true⟩

/-- Outcome of the daemon's non-blocking `os.write` to the pipe:
success, `ENXIO` (no reader — the hook already gave up), or another
`OSError`. -/
inductive PipeWriteResult where
  | ok : PipeWriteResult
  | enxio : PipeWriteResult
  | oserr (msg : String) : PipeWriteResult
  deriving Repr, DecidableEq

/-- Environment of `_handle_approval_callback`: the configured approval
principal and the pipe file-system operations. -/
structure DaemonEnv where
  approval_user : String
  pipe_exists : String → Bool
  pipe_write : String → PipeWriteResult

/-- One Telegram callback (button press). -/
structure Callback where
  data : String
  id : String
  sender_id : String
  first_name : String
  deriving Repr, DecidableEq

/-- Observable outcome of one `_handle_approval_callback` run: the text
answered to the actor, the `_approvals` store afterwards, and the
payload written into the pipe (`none` when no signal was sent). -/
structure CallbackResult where
  answer : String
  store : List (String × ApprovalRecord)
  signal : Option String
  deriving Repr, DecidableEq

/-- The `approve_{id}` / `block_{id}` parsing at the top of
`_handle_approval_callback` (checked in this order). -/
def parseCallbackData (data : String) : Option (String × String) :=
  if strStartsWith data "approve_" then some (data.drop 8, "approve")
  else if strStartsWith data "block_" then some (data.drop 6, "block")
  else none

/-- `_handle_approval_callback`: authorization check, callback-data
parsing, record lookup, pipe liveness check, decision-metadata write,
and the pipe signal with its distinguished `ENXIO` handling. -/
def handleApprovalCallback (env : DaemonEnv) (cb : Callback)
    (store : List (String × ApprovalRecord)) : CallbackResult :=
  if cb.sender_id ≠ env.approval_user then
    ⟨"Not authorized for approvals", store, none⟩
  else match parseCallbackData cb.data with
  | none => ⟨"Unknown action", store, none⟩
  | some (approval_id, decision) =>
      match lookupAL approval_id store with
      | none => ⟨"Approval expired or already handled", store, none⟩
      | some state =>
          if state.pipe_path = "" ∨ ¬ env.pipe_exists state.pipe_path then
            ⟨"Approval expired (pipe gone)", store, none⟩
          else
            let state' := { state with decided_by := some cb.first_name,
                                       decision := some decision }
            let store' := insertAL approval_id state' store
            match env.pipe_write state.pipe_path with
            | .enxio => ⟨"Approval expired (hook timed out)", store', none⟩
            | .oserr e => ⟨"Error: " ++ e, store', none⟩
            | .ok =>
                ⟨(if decision = "approve" then "✅ " else "❌ ") ++
                  pyTitle decision ++ "d", store', some decision⟩

/-! ## Debounce engine — src/hookline/debounce.py

`_locked_update` on `{project}/debounce.json` serializes access to a
single optional batch document, modelled as `Option DebounceBatch`;
returning `none` from the updater deletes the file. -/

/-- Per-event-kind accumulator inside a batch. -/
structure EventInfo where
  count : Nat
  names : List String
  deriving Repr, DecidableEq

/-- The `debounce.json` document. -/
structure DebounceBatch where
  events : List (String × EventInfo)
  first_time : Nat
  first_utc : String
  last_time : Nat
  last_utc : String
  deriving Repr, DecidableEq

/-- The fields of the hook event dict the debounce engine reads
(each via `.get` with a default). -/
structure HookEvent where
  hook_event_name : Option String
  teammate_name : Option String
  deriving Repr, DecidableEq

/-- Adding to a Python `set` materialized back to a list: no duplicate
is introduced. -/
def addName (n : String) (l : List String) : List String :=
  if n ∈ l then l else l ++ [n]

/-- `_debounce_accumulate`'s updater under `_locked_update`: initialize
the batch on first event, bump the event-kind counter, track teammate
names as a de-duplicated set, refresh the last-seen stamps. -/
def debounceAccumulate (event : HookEvent) (now : Nat) (now_utc : String)
    (store : Option DebounceBatch) : Option DebounceBatch :=
  let event_name := event.hook_event_name.getD "Unknown"
  let state := match store with
    | none => { events := [], first_time := now, first_utc := now_utc,
                last_time := now, last_utc := now_utc : DebounceBatch }
    | some b => b
  let prev := lookupAL event_name state.events
  let count := (prev.map (·.count)).getD 0
  let names0 := (prev.map (·.names)).getD []
  let names :=
    if event_name = "TeammateIdle" then
      addName (event.teammate_name.getD "unknown") names0
    else names0
  some { state with
    events := insertAL event_name ⟨count + 1, names⟩ state.events,
    last_time := now, last_utc := now_utc }

/-- The `EMOJI` table in src/hookline/config.py. -/
def EMOJI : List (String × String) :=
  [("Stop", "✅"), ("Notification", "⏳"), ("TeammateIdle", "💤"),
   ("TaskCompleted", "🎯"), ("SubagentStop", "📋")]

/-- `_esc` in src/hookline/formatting.py. -/
def escHtml (s : String) : String :=
  strReplace (strReplace (strReplace s "&" "&amp;") "<" "&lt;") ">" "&gt;"

/-- Modelled from the spec: `_project_label` lives in
`hookline/project.py`, which is not among the provided sources; per the
spec the summary ends with "a project label", and the notify package's
identically named helper renders the project with an optional
configured emoji.  The emoji configuration is passed in. -/
def projectLabel (emojiCfg : List (String × String)) (project : String) : String :=
  let emoji := (lookupAL project emojiCfg).getD ""
  if emoji = "" then project else emoji ++ " " ++ project

/-- The summary rendering of `_debounce_flush` from the pre-deletion
snapshot: one clause per known event kind, joined with `·`, followed by
the escaped project label and the collapsed time span. -/
def renderFlush (label : String) (b : DebounceBatch) : String :=
  let time_range :=
    if b.first_utc = b.last_utc then b.first_utc
    else b.first_utc ++ "–" ++ b.last_utc
  let parts := b.events.foldl (fun acc p =>
    let event_name := p.1
    let info := p.2
    let emoji := (lookupAL event_name EMOJI).getD "🔔"
    if event_name = "SubagentStop" then
      let noun := if info.count = 1 then "subagent" else "subagents"
      acc ++ [emoji ++ " ×" ++ toString info.count ++ " " ++ noun ++ " finished"]
    else if event_name = "TeammateIdle" then
      if info.names ≠ [] then
        let sorted := pySorted info.names
        let name_str := joinWith ", "
          (sorted.map (fun n => "<b>" ++ escHtml n ++ "</b>"))
        acc ++ [emoji ++ " " ++ name_str ++ " idle"]
      else
        let noun := if info.count = 1 then "teammate" else "teammates"
        acc ++ [emoji ++ " ×" ++ toString info.count ++ " " ++ noun ++ " idle"]
    else acc) []
  let text := joinWith " · " parts
  text ++ " · " ++ escHtml label ++ " · <i>" ++ time_range ++ " UTC</i>"

/-- `_debounce_flush`: the `_locked_update` updater captures the current
document as the pre-deletion snapshot and unconditionally returns
`None`, deleting the file; an absent batch or one with no events renders
nothing.  Returns the rendered summary (or `none`) and the store
afterwards. -/
def debounceFlush (label : String) (store : Option DebounceBatch) :
    Option String × Option DebounceBatch :=
  let flushed := store
  match flushed with
  | none => (none, none)
  | some b => if b.events = [] then (none, none) else (some (renderFlush label b), none)

/-! ## Concrete environments used by the claim witnesses -/

/-- Task used in the C5 witness: cron `* * * * *`. -/
def c5task : ScheduledTask :=
  ⟨"beat", some ⟨none, none, none, none, none⟩, none, 0⟩

/-- Tasks and handler oracle for the C9 witness: two interval tasks both
due at timestamp 100; the handler of `"a"` raises, the handler of `"b"`
succeeds. -/
def c9tasks : List ScheduledTask :=
  [⟨"a", none, some 60, 0⟩, ⟨"b", none, some 60, 0⟩]

/-- Handler-outcome oracle for the C9 witness. -/
def c9oracle : String → Bool := fun n => n ≠ "a"

/-- Concrete environment for the C1 witness: all announce steps succeed
and the wait times out with no concurrent daemon write. -/
def c1env : HookEnv :=
  { approval_enabled := true, dry_run := false, serve_running := true,
    project := "demo", tool_name := "Bash", approval_id := "aaaa",
    mkfifo := .ok, send_msg_id := some 7, wait_signal := none,
    record_at_wake := none, timestamp := "2026-01-01T00:00:00",
    created_at := "2026-01-01T00:00:00" }

/-- Concrete environment for the C2 counterexample: approval enabled,
daemon not running. -/
def c2env : HookEnv :=
  { approval_enabled := true, dry_run := false, serve_running := false,
    project := "demo", tool_name := "Bash", approval_id := "bbbb",
    mkfifo := .ok, send_msg_id := some 1, wait_signal := none,
    record_at_wake := none, timestamp := "2026-01-01T00:00:00",
    created_at := "2026-01-01T00:00:00" }

/-- Daemon environment for the C3 witness. -/
def c3denv : DaemonEnv :=
  { approval_user := "99", pipe_exists := fun _ => true,
    pipe_write := fun _ => .ok }

/-- Callback for the C3 witness: a second press on an already consumed
approval id. -/
def c3cb : Callback :=
  { data := "approve_gone", id := "cb2", sender_id := "99",
    first_name := "Tom" }

/-- Concrete environment for the C6 witness. -/
def c6env : HookEnv :=
  { approval_enabled := true, dry_run := false, serve_running := false,
    project := "acme", tool_name := "Write", approval_id := "cccc",
    mkfifo := .ok, send_msg_id := some 3, wait_signal := none,
    record_at_wake := none, timestamp := "2026-01-01T00:00:00",
    created_at := "2026-01-01T00:00:00" }

/-! ## Dict lemmas -/

theorem lookupAL_insertAL_self (k : String) (v : α) (l : List (String × α)) :
    lookupAL k (insertAL k v l) = some v := by
  induction l with
  | nil => simp [insertAL, lookupAL]
  | cons hd tl ih =>
      obtain ⟨k', v'⟩ := hd
      by_cases h : k' = k <;> simp [insertAL, lookupAL, h, ih]

theorem lookupAL_insertAL_ne (k k' : String) (hne : k' ≠ k) (v : α)
    (l : List (String × α)) :
    lookupAL k' (insertAL k v l) = lookupAL k' l := by
  induction l with
  | nil =>
      simp only [insertAL, lookupAL]
      rw [if_neg (fun h => hne h.symm)]
  | cons hd tl ih =>
      obtain ⟨k₀, v₀⟩ := hd
      by_cases h : k₀ = k
      · subst h
        simp [insertAL, lookupAL, Ne.symm hne, hne]
      · by_cases h' : k₀ = k'
        · subst h'
          simp [insertAL, lookupAL, h, hne]
        · simp [insertAL, lookupAL, h, h', ih]

/-! ## Characterizations of the tick loop -/

theorem tickLoop_attempted (now : PyDateTime) (ts : Nat) (h : String → Bool)
    (l : List ScheduledTask) : ∀ acc : TickAcc,
    (tickLoop now ts h acc l).attempted
      = acc.attempted ++ (l.filter (fun t => t.shouldRun now ts)).map (·.name) := by
  induction l with
  | nil => intro acc; simp [tickLoop]
  | cons t rest ih =>
      intro acc
      by_cases hs : t.shouldRun now ts = true
      · by_cases hh : h t.name = true
        · simp [tickLoop, hs, hh, ih, List.filter_cons]
        · simp [tickLoop, hs, hh, ih, List.filter_cons]
      · simp [tickLoop, hs, ih, List.filter_cons]

theorem tickLoop_fired (now : PyDateTime) (ts : Nat) (h : String → Bool)
    (l : List ScheduledTask) : ∀ acc : TickAcc,
    (tickLoop now ts h acc l).fired
      = acc.fired ++
        (l.filter (fun t => t.shouldRun now ts && h t.name)).map (·.name) := by
  induction l with
  | nil => intro acc; simp [tickLoop]
  | cons t rest ih =>
      intro acc
      by_cases hs : t.shouldRun now ts = true
      · by_cases hh : h t.name = true
        · simp [tickLoop, hs, hh, ih, List.filter_cons]
        · simp [tickLoop, hs, hh, ih, List.filter_cons]
      · simp [tickLoop, hs, ih, List.filter_cons]

theorem tickLoop_tasks (now : PyDateTime) (ts : Nat) (h : String → Bool)
    (l : List ScheduledTask) : ∀ acc : TickAcc,
    (tickLoop now ts h acc l).tasks
      = acc.tasks ++ l.map (fun t =>
          if t.shouldRun now ts && h t.name then { t with last_run := ts } else t) := by
  induction l with
  | nil => intro acc; simp [tickLoop]
  | cons t rest ih =>
      intro acc
      by_cases hs : t.shouldRun now ts = true
      · by_cases hh : h t.name = true
        · simp [tickLoop, hs, hh, ih]
        · simp [tickLoop, hs, hh, ih]
      · simp [tickLoop, hs, ih]

theorem tickLoop_ranAny (now : PyDateTime) (ts : Nat) (h : String → Bool)
    (l : List ScheduledTask) : ∀ acc : TickAcc,
    (tickLoop now ts h acc l).ranAny
      = (acc.ranAny || l.any (fun t => t.shouldRun now ts && h t.name)) := by
  induction l with
  | nil => intro acc; simp [tickLoop]
  | cons t rest ih =>
      intro acc
      by_cases hs : t.shouldRun now ts = true
      · by_cases hh : h t.name = true
        · simp [tickLoop, hs, hh, ih]
        · simp [tickLoop, hs, hh, ih]
      · simp [tickLoop, hs, ih]

theorem tickLoop_state_lookup (now : PyDateTime) (ts : Nat) (h : String → Bool)
    (l : List ScheduledTask) (name : String) : ∀ acc : TickAcc,
    lookupAL name (tickLoop now ts h acc l).state
      = if name ∈ (l.filter (fun t => t.shouldRun now ts && h t.name)).map (·.name)
        then some ts else lookupAL name acc.state := by
  induction l with
  | nil => intro acc; simp [tickLoop]
  | cons t rest ih =>
      intro acc
      by_cases hs : t.shouldRun now ts = true
      · by_cases hh : h t.name = true
        · rw [tickLoop]
          simp only [hs, hh, if_true]
          rw [ih]
          by_cases hmem : name ∈ (rest.filter
              (fun t => t.shouldRun now ts && h t.name)).map (·.name)
          · simp [List.filter_cons, hs, hh, hmem]
          · by_cases hname : name = t.name
            · subst hname
              simp [List.filter_cons, hs, hh, hmem, lookupAL_insertAL_self]
            · simp only [hmem, if_false]
              rw [lookupAL_insertAL_ne _ _ hname]
              simp [List.filter_cons, hs, hh, hmem, hname]
        · rw [tickLoop, if_pos hs, if_neg hh, ih]
          simp only [Bool.not_eq_true] at hh
          have hfil : List.filter (fun x => x.shouldRun now ts && h x.name) (t :: rest)
              = List.filter (fun x => x.shouldRun now ts && h x.name) rest := by
            simp [List.filter_cons, hs, hh]
          rw [hfil]
      · rw [tickLoop, if_neg hs, ih]
        simp only [Bool.not_eq_true] at hs
        have hfil : List.filter (fun x => x.shouldRun now ts && h x.name) (t :: rest)
            = List.filter (fun x => x.shouldRun now ts && h x.name) rest := by
          simp [List.filter_cons, hs]
        rw [hfil]

theorem hydrate_name (state : List (String × Nat)) (t : ScheduledTask) :
    (hydrate state t).name = t.name := by
  cases h : lookupAL t.name state <;> simp [hydrate, h]

theorem hydrate_cron (state : List (String × Nat)) (t : ScheduledTask) :
    (hydrate state t).cron_expr = t.cron_expr := by
  cases h : lookupAL t.name state <;> simp [hydrate, h]

theorem tick_attempted_eq (tasks : List ScheduledTask)
    (persisted : List (String × Nat)) (ts : Nat) (h : String → Bool) :
    (tick tasks persisted ts h).attempted
      = ((tasks.map (hydrate persisted)).filter
          (fun t => t.shouldRun (fromTimestamp ts) ts)).map (·.name) := by
  cases tasks with
  | nil => simp [tick]
  | cons t rest => simp [tick, tickLoop_attempted]

theorem tick_fired_eq (tasks : List ScheduledTask)
    (persisted : List (String × Nat)) (ts : Nat) (h : String → Bool) :
    (tick tasks persisted ts h).fired
      = ((tasks.map (hydrate persisted)).filter
          (fun t => t.shouldRun (fromTimestamp ts) ts && h t.name)).map (·.name) := by
  cases tasks with
  | nil => simp [tick]
  | cons t rest => simp [tick, tickLoop_fired]

theorem tick_tasks_eq (tasks : List ScheduledTask)
    (persisted : List (String × Nat)) (ts : Nat) (h : String → Bool) :
    (tick tasks persisted ts h).tasks
      = (tasks.map (hydrate persisted)).map (fun t =>
          if t.shouldRun (fromTimestamp ts) ts && h t.name
          then { t with last_run := ts } else t) := by
  cases tasks with
  | nil => simp [tick]
  | cons t rest => simp [tick, tickLoop_tasks]

theorem tick_state_lookup (tasks : List ScheduledTask)
    (persisted : List (String × Nat)) (ts : Nat) (h : String → Bool)
    (name : String) :
    lookupAL name (tick tasks persisted ts h).state
      = if name ∈ (tick tasks persisted ts h).fired then some ts
        else lookupAL name persisted := by
  cases tasks with
  | nil => simp [tick]
  | cons t rest =>
      simp only [tick, List.isEmpty_cons, Bool.false_eq_true, if_false]
      rw [tickLoop_state_lookup, tickLoop_fired]
      simp

theorem tick_saved_eq (tasks : List ScheduledTask)
    (persisted : List (String × Nat)) (ts : Nat) (h : String → Bool) :
    (tick tasks persisted ts h).saved
      = if (tick tasks persisted ts h).fired = [] then none
        else some (tick tasks persisted ts h).state := by
  cases tasks with
  | nil => simp [tick]
  | cons t rest =>
      simp only [tick, List.isEmpty_cons, Bool.false_eq_true, if_false]
      rw [tickLoop_ranAny, tickLoop_fired]
      simp only [Bool.false_or, List.nil_append]
      by_cases hany : List.any (List.map (hydrate persisted) (t :: rest))
          (fun t => t.shouldRun (fromTimestamp ts) ts && h t.name) = true
      · rw [if_pos hany]
        obtain ⟨x, hx, hpx⟩ := List.any_eq_true.mp hany
        have hfilne : List.filter
            (fun t => t.shouldRun (fromTimestamp ts) ts && h t.name)
            (List.map (hydrate persisted) (t :: rest)) ≠ [] := by
          intro hnil
          have hmem : x ∈ List.filter
              (fun t => t.shouldRun (fromTimestamp ts) ts && h t.name)
              (List.map (hydrate persisted) (t :: rest)) :=
            List.mem_filter.mpr ⟨hx, hpx⟩
          rw [hnil] at hmem
          exact absurd hmem (List.not_mem_nil x)
        rw [if_neg (by simpa using hfilne)]
      · rw [if_neg hany]
        have hfil : List.filter
            (fun t => t.shouldRun (fromTimestamp ts) ts && h t.name)
            (List.map (hydrate persisted) (t :: rest)) = [] := by
          rw [List.filter_eq_nil_iff]
          intro x hx hpx
          exact hany (List.any_eq_true.mpr ⟨x, hx, hpx⟩)
        rw [hfil]
        simp

/-- Names are preserved through hydration and the last-run update, so a
nodup task registry keeps nodup names at every stage. -/
theorem map_name_hydrate (persisted : List (String × Nat))
    (tasks : List ScheduledTask) :
    (tasks.map (hydrate persisted)).map (·.name) = tasks.map (·.name) := by
  rw [List.map_map]
  exact List.map_congr_left (fun t _ => hydrate_name persisted t)

/-! ## Claim C5 — cron tasks fire at most once per calendar minute -/

/-- C5: for every registered cron-triggered task, if the task fired at a
tick whose timestamp falls in the same calendar minute (equal
year/month/day/hour/minute in UTC) as a later tick's "now", the later
tick does not fire it again — its handler is not even invoked. -/
theorem C5_cron_minute_dedup
    (tasks : List ScheduledTask) (persisted : List (String × Nat))
    (t1 t2 : Nat) (h1 h2 : String → Bool) (task : ScheduledTask) (c : CronExpr)
    (hnodup : (tasks.map (·.name)).Nodup)
    (hmem : task ∈ tasks) (hcron : task.cron_expr = some c)
    (ht1 : 0 < t1)
    (hfired : task.name ∈ (tick tasks persisted t1 h1).fired)
    (hsame : sameMinute (fromTimestamp t1) (fromTimestamp t2) = true) :
    task.name ∉ (tick (tick tasks persisted t1 h1).tasks
      ((tick tasks persisted t1 h1).saved.getD persisted) t2 h2).attempted := by
  have hsaved : (tick tasks persisted t1 h1).saved
      = some (tick tasks persisted t1 h1).state := by
    rw [tick_saved_eq]
    have hne : (tick tasks persisted t1 h1).fired ≠ [] := by
      intro hnil; rw [hnil] at hfired; exact absurd hfired (List.not_mem_nil _)
    rw [if_neg hne]
  have hlook : lookupAL task.name (tick tasks persisted t1 h1).state = some t1 := by
    rw [tick_state_lookup, if_pos hfired]
  rw [hsaved, Option.getD_some]
  intro hatt
  rw [tick_attempted_eq] at hatt
  obtain ⟨t', ht'mem, ht'name⟩ := List.mem_map.mp hatt
  obtain ⟨ht'in, ht'run⟩ := List.mem_filter.mp ht'mem
  obtain ⟨u, humem, hueq⟩ := List.mem_map.mp ht'in
  rw [tick_tasks_eq] at humem
  obtain ⟨v, hvmem, hveq⟩ := List.mem_map.mp humem
  obtain ⟨w, hwmem, hweq⟩ := List.mem_map.mp hvmem
  -- w is the original registered task underlying t'; it shares task's name
  have hvname : v.name = w.name := by rw [← hweq, hydrate_name]
  have huname : u.name = v.name := by
    rw [← hveq]
    split <;> rfl
  have ht'uname : t'.name = u.name := by rw [← hueq, hydrate_name]
  have hwname : w.name = task.name := by
    rw [← hvname, ← huname, ← ht'uname, ht'name]
  have hw : w = task := List.inj_on_of_nodup_map hnodup hwmem hmem hwname
  -- cron expression is preserved from w all the way to t'
  have hvcron : v.cron_expr = w.cron_expr := by rw [← hweq, hydrate_cron]
  have hucron : u.cron_expr = v.cron_expr := by
    rw [← hveq]
    split <;> rfl
  have ht'cron : t'.cron_expr = some c := by
    rw [← hueq, hydrate_cron, hucron, hvcron, hw, hcron]
  -- the second hydration pins t'.last_run to t1
  have hname' : u.name = task.name := by rw [huname, hvname, hwname]
  have ht'last : t'.last_run = t1 := by
    rw [← hueq]
    unfold hydrate
    rw [hname', hlook]
  -- but a cron task cannot be due again within the same minute
  have h0 : 0 < t'.last_run := ht'last ▸ ht1
  have hs : sameMinute (fromTimestamp t'.last_run) (fromTimestamp t2) = true := by
    rw [ht'last]; exact hsame
  have hfalse : t'.shouldRun (fromTimestamp t2) t2 = false := by
    unfold ScheduledTask.shouldRun
    rw [ht'cron]
    by_cases hm : c.matchesAt (fromTimestamp t2) = true
    · simp [hm, h0, hs]
    · simp [hm]
  rw [hfalse] at ht'run
  exact absurd ht'run (by simp)

/-- Witness for C5: the every-minute cron task fires on a tick at
timestamp 60 and is not re-attempted on a tick at timestamp 90, which
lies in the same calendar minute. -/
theorem C5_cron_minute_dedup_witness :
    "beat" ∈ (tick [c5task] [] 60 (fun _ => true)).fired ∧
    sameMinute (fromTimestamp 60) (fromTimestamp 90) = true ∧
    "beat" ∉ (tick (tick [c5task] [] 60 (fun _ => true)).tasks
      ((tick [c5task] [] 60 (fun _ => true)).saved.getD []) 90
      (fun _ => true)).attempted := by
  refine ⟨by decide, by decide, ?_⟩
  exact C5_cron_minute_dedup [c5task] [] 60 90 (fun _ => true) (fun _ => true)
    c5task ⟨none, none, none, none, none⟩ (by decide) (by decide) rfl
    (by decide) (by decide) (by decide)

/-! ## Claim C9 — handler exceptions are isolated within a tick -/

/-- C9: within one scheduler tick, (1) which handlers get invoked does
not depend on which handlers raise, so one task's exception prevents no
other due task from running and does not abort the tick; (2) every due
task's handler is invoked; (3) a task whose handler raised keeps both
its in-memory task object and its persisted last-run entry unchanged;
(4) the durable last-run map is written (once, after the loop) exactly
when at least one task fired. -/
theorem C9_handler_error_isolation
    (tasks : List ScheduledTask) (persisted : List (String × Nat)) (ts : Nat)
    (h h' : String → Bool)
    (hnodup : (tasks.map (·.name)).Nodup) :
    ((tick tasks persisted ts h).attempted = (tick tasks persisted ts h').attempted)
    ∧ (∀ t, t ∈ tasks.map (hydrate persisted) →
        t.shouldRun (fromTimestamp ts) ts = true →
        t.name ∈ (tick tasks persisted ts h).attempted)
    ∧ (∀ t, t ∈ tasks.map (hydrate persisted) →
        h t.name = false →
        (t ∈ (tick tasks persisted ts h).tasks
          ∧ lookupAL t.name (tick tasks persisted ts h).state
              = lookupAL t.name persisted))
    ∧ ((tick tasks persisted ts h).saved
        = if (tick tasks persisted ts h).fired = [] then none
          else some (tick tasks persisted ts h).state) := by
  have hnodup' : ((tasks.map (hydrate persisted)).map (·.name)).Nodup := by
    rw [map_name_hydrate]; exact hnodup
  refine ⟨?_, ?_, ?_, tick_saved_eq tasks persisted ts h⟩
  · rw [tick_attempted_eq, tick_attempted_eq]
  · intro t htmem hdue
    rw [tick_attempted_eq]
    exact List.mem_map.mpr ⟨t, List.mem_filter.mpr ⟨htmem, hdue⟩, rfl⟩
  · intro t htmem hfail
    have hnotfired : t.name ∉ (tick tasks persisted ts h).fired := by
      rw [tick_fired_eq]
      intro hin
      obtain ⟨t'', ht''mem, ht''name⟩ := List.mem_map.mp hin
      obtain ⟨ht''in, ht''p⟩ := List.mem_filter.mp ht''mem
      have : t'' = t := List.inj_on_of_nodup_map hnodup' ht''in htmem ht''name
      rw [this, hfail] at ht''p
      simp at ht''p
    constructor
    · rw [tick_tasks_eq]
      have : (if t.shouldRun (fromTimestamp ts) ts && h t.name
          then { t with last_run := ts } else t) = t := by
        rw [if_neg]
        simp [hfail]
      have hmem' : (if t.shouldRun (fromTimestamp ts) ts && h t.name
            then { t with last_run := ts } else t)
          ∈ (tasks.map (hydrate persisted)).map (fun t =>
              if t.shouldRun (fromTimestamp ts) ts && h t.name
              then { t with last_run := ts } else t) :=
        List.mem_map.mpr ⟨t, htmem, rfl⟩
      rw [this] at hmem'
      exact hmem'
    · rw [tick_state_lookup, if_neg hnotfired]

/-- Witness for C9 at a concrete tick: the invoked set ignores the
failure, the failing task `"a"` is still attempted but keeps its state,
and the map is saved because `"b"` fired. -/
theorem C9_handler_error_isolation_witness :
    ((tick c9tasks [] 100 c9oracle).attempted
      = (tick c9tasks [] 100 (fun _ => true)).attempted)
    ∧ ("a" ∈ (tick c9tasks [] 100 c9oracle).attempted)
    ∧ (⟨"a", none, some 60, 0⟩ ∈ (tick c9tasks [] 100 c9oracle).tasks
        ∧ lookupAL "a" (tick c9tasks [] 100 c9oracle).state = lookupAL "a" [])
    ∧ ((tick c9tasks [] 100 c9oracle).saved
        = if (tick c9tasks [] 100 c9oracle).fired = [] then none
          else some (tick c9tasks [] 100 c9oracle).state) := by
  have H := C9_handler_error_isolation c9tasks [] 100 c9oracle (fun _ => true)
    (by decide)
  exact ⟨H.1,
    H.2.1 ⟨"a", none, some 60, 0⟩ (by decide) (by decide),
    H.2.2.1 ⟨"a", none, some 60, 0⟩ (by decide) (by decide),
    H.2.2.2⟩

/-! ## Claim C4 — cron expression validation -/

theorem isOkE_bind_of_error {α β : Type} (e : Except String α)
    (f : α → Except String β) (h : isOkE e = false) : isOkE (e >>= f) = false := by
  cases e with
  | error m => rfl
  | ok v => simp [isOkE] at h

theorem parseParts_error_of_mem (minVal maxVal : Int) (parts : List String)
    (part : String) (hmem : part ∈ parts)
    (herr : isOkE (parsePart minVal maxVal part) = false) :
    isOkE (parseParts minVal maxVal parts) = false := by
  induction parts with
  | nil => cases hmem
  | cons p ps ih =>
      rcases List.mem_cons.mp hmem with h | h
      · subst h
        exact isOkE_bind_of_error _ _ herr
      · cases hp : parsePart minVal maxVal p with
        | error e => exact isOkE_bind_of_error _ _ (by rw [hp]; rfl)
        | ok v =>
            have hred : parseParts minVal maxVal (p :: ps)
                = parseParts minVal maxVal ps >>= fun rest => pure (v ++ rest) := by
              show (parsePart minVal maxVal p >>= fun vs =>
                parseParts minVal maxVal ps >>= fun rest => pure (vs ++ rest)) = _
              rw [hp]
              rfl
            rw [hred]
            exact isOkE_bind_of_error _ _ (ih h)

theorem parseField_error_of_part (field : String) (minVal maxVal : Int)
    (part : String) (hne : field ≠ "*") (hmem : part ∈ splitOnChar ',' field)
    (herr : isOkE (parsePart minVal maxVal part) = false) :
    isOkE (parseField field minVal maxVal) = false := by
  unfold parseField
  rw [if_neg hne]
  have h := parseParts_error_of_mem minVal maxVal (splitOnChar ',' field) part hmem herr
  cases hq : parseParts minVal maxVal (splitOnChar ',' field) with
  | error e => simp [Except.map, isOkE]
  | ok vs => rw [hq] at h; simp [isOkE] at h

theorem splitFirst_some_len (sep : Char) (s a b : String)
    (h : splitFirst sep s = (a, some b)) : (splitOnChar sep s).length > 1 := by
  unfold splitFirst at h
  rcases hs : splitOnChar sep s with _ | ⟨x, _ | ⟨y, t⟩⟩
  · rw [hs] at h; simp at h
  · rw [hs] at h; simp at h
  · simp [hs]

theorem cronParse_error_of_count (expr : String)
    (hne : (pySplit expr).length ≠ 5) : isOkE (cronParse expr) = false := by
  rcases hsplit : pySplit expr with _ | ⟨f0, _ | ⟨f1, _ | ⟨f2, _ | ⟨f3, _ | ⟨f4, _ | ⟨f5, rest⟩⟩⟩⟩⟩⟩
  · simp [cronParse, hsplit, isOkE]
  · simp [cronParse, hsplit, isOkE]
  · simp [cronParse, hsplit, isOkE]
  · simp [cronParse, hsplit, isOkE]
  · simp [cronParse, hsplit, isOkE]
  · rw [hsplit] at hne; simp at hne
  · simp [cronParse, hsplit, isOkE]

/-- C4 counterexample: the range `0-60` in the minute field is accepted
by `CronExpr` even though 60 is outside the minute domain 0–59, so "any
value outside the field's valid domain raises" is false as stated. -/
theorem C4_cron_validation_counterexample :
    isOkE (cronParse "0-60 * * * *") = true
    ∧ minuteHas (cronParse "0-60 * * * *") 60 = true :=
  ⟨by decide, by decide⟩

/-- C4 (amended): parsing rejects a field count other than five, any
single-value entry outside the field's domain, any range with low >
high, and any stride with step ≤ 0 (each malformed part also fails the
whole field and hence the whole expression); however, out-of-domain
values introduced by range endpoints or stride bases are accepted
without a domain check. -/
theorem C4_cron_validation_amended :
    (∀ expr, (pySplit expr).length ≠ 5 → isOkE (cronParse expr) = false)
    ∧ (∀ minVal maxVal : Int, ∀ part : String, ∀ v : Int,
        (splitOnChar '/' part).length ≤ 1 → (splitOnChar '-' part).length ≤ 1 →
        pyInt part = some v → (v < minVal ∨ v > maxVal) →
        isOkE (parsePart minVal maxVal part) = false)
    ∧ (∀ minVal maxVal : Int, ∀ part loS hiS : String, ∀ lo hi : Int,
        (splitOnChar '/' part).length ≤ 1 →
        splitFirst '-' part = (loS, some hiS) → pyInt loS = some lo →
        pyInt hiS = some hi → lo > hi →
        isOkE (parsePart minVal maxVal part) = false)
    ∧ (∀ minVal maxVal : Int, ∀ part baseS stepS : String, ∀ step : Int,
        splitFirst '/' part = (baseS, some stepS) → pyInt stepS = some step →
        step ≤ 0 → isOkE (parsePart minVal maxVal part) = false)
    ∧ (∀ field : String, ∀ minVal maxVal : Int, ∀ part : String,
        field ≠ "*" → part ∈ splitOnChar ',' field →
        isOkE (parsePart minVal maxVal part) = false →
        isOkE (parseField field minVal maxVal) = false) := by
  refine ⟨cronParse_error_of_count, ?_, ?_, ?_, parseField_error_of_part⟩
  · intro minVal maxVal part v hslash hdash hint hout
    unfold parsePart
    rw [if_neg (by omega), if_neg (by omega)]
    simp [hint, hout, isOkE]
  · intro minVal maxVal part loS hiS lo hi hslash hsf hlo hhi hgt
    have hlen := splitFirst_some_len '-' part loS hiS hsf
    unfold parsePart
    rw [if_neg (by omega), if_pos hlen, hsf]
    simp [hlo, hhi, hgt, isOkE]
  · intro minVal maxVal part baseS stepS step hsf hstep hle
    have hlen := splitFirst_some_len '/' part baseS stepS hsf
    unfold parsePart
    rw [if_pos hlen, hsf]
    cases hbase : (if baseS = "*" then some minVal else pyInt baseS) with
    | none => simp [hbase, hstep, isOkE]
    | some start => simp [hbase, hstep, hle, isOkE]

/-- Witness for the amended C4 at the spec's own test vectors plus a
low-over-high range: wrong field count, out-of-domain single value,
inverted range, and zero stride are all rejected. -/
theorem C4_cron_validation_amended_witness :
    isOkE (cronParse "* * *") = false
    ∧ isOkE (parsePart 0 59 "60") = false
    ∧ isOkE (parsePart 0 59 "5-1") = false
    ∧ isOkE (parsePart 0 59 "*/0") = false
    ∧ isOkE (parseField "60" 0 59) = false := by
  have H := C4_cron_validation_amended
  refine ⟨H.1 "* * *" (by decide),
    H.2.1 0 59 "60" 60 (by decide) (by decide) (by decide) (by decide),
    H.2.2.1 0 59 "5-1" "5" "1" 5 1 (by decide) (by decide) (by decide)
      (by decide) (by decide),
    H.2.2.2.1 0 59 "*/0" "*" "0" 0 (by decide) (by decide) (by decide),
    H.2.2.2.2 "60" 0 59 "60" (by decide) (by decide)
      (H.2.1 0 59 "60" 60 (by decide) (by decide) (by decide) (by decide))⟩

/-! ## Approval rendezvous claims

The hook's post-wait read can return anything a concurrently running
daemon callback may have produced.  No code path writes a `reason` key
into an approval record — the hook's initial write omits it and the
callback touches only `decided_by` and `decision` — which the following
two lemmas establish for every reachable store. -/

theorem initialRecord_reason_none (a : String) (m : Nat)
    (p t pp ca : String) : (initialRecord a m p t pp ca).reason = none := rfl

theorem callback_preserves_reason_none (denv : DaemonEnv) (cb : Callback)
    (store : List (String × ApprovalRecord))
    (hstore : ∀ id rec, lookupAL id store = some rec → rec.reason = none) :
    ∀ id rec,
      lookupAL id (handleApprovalCallback denv cb store).store = some rec →
      rec.reason = none := by
  intro id rec
  have hins : ∀ aid dec st, lookupAL aid store = some st →
      ∀ r', lookupAL id (insertAL aid
        { st with decided_by := some cb.first_name,
                  decision := some dec } store) = some r' →
      r'.reason = none := by
    intro aid dec st hl r' hr'
    by_cases hid : id = aid
    · subst hid
      rw [lookupAL_insertAL_self] at hr'
      cases hr'
      exact hstore id st hl
    · rw [lookupAL_insertAL_ne _ _ hid] at hr'
      exact hstore id r' hr'
  unfold handleApprovalCallback
  split
  · exact hstore id rec
  · split
    · exact hstore id rec
    · next aid dec _ =>
        split
        · exact hstore id rec
        · next st hl =>
            split
            · exact hstore id rec
            · split
              · exact hins aid dec st hl rec
              · exact hins aid dec st hl rec
              · exact hins aid dec st hl rec

/-- C1: when the hook reaches the wait phase (approval enabled, not a
dry run, daemon running, pipe created, request announced) and no signal
arrives on the pipe before the timeout, the emitted decision is exactly
`decision = block, reason = Timed out` — the timeout never defaults to
approve.  The hypothesis on the read-back record holds for every
reachable store by `initialRecord_reason_none` and
`callback_preserves_reason_none`. -/
theorem C1_timeout_fail_closed (env : HookEnv) (m : Nat)
    (hen : env.approval_enabled = true) (hdr : env.dry_run = false)
    (hsr : env.serve_running = true) (hmk : env.mkfifo = .ok)
    (hmsg : env.send_msg_id = some m)
    (hwait : env.wait_signal = none)
    (hreason : ∀ rec, env.record_at_wake = some rec → rec.reason = none) :
    (handlePreToolUse env).output = some ⟨"block", some "Timed out"⟩
    ∧ (handlePreToolUse env).waited = true := by
  cases hr : env.record_at_wake with
  | none =>
      simp [handlePreToolUse, hen, hdr, hsr, hmk, hmsg, hwait, hr, outputDecision]
  | some rec =>
      have hrn := hreason rec hr
      simp [handlePreToolUse, hen, hdr, hsr, hmk, hmsg, hwait, hr, hrn,
        outputDecision]

/-- Witness for C1 at a concrete timed-out run. -/
theorem C1_timeout_fail_closed_witness :
    c1env.wait_signal = none
    ∧ (handlePreToolUse c1env).output = some ⟨"block", some "Timed out"⟩ :=
  ⟨rfl, (C1_timeout_fail_closed c1env 7 rfl rfl rfl rfl rfl rfl
    (fun rec h => Option.noConfusion h)).1⟩

/-- C2 counterexample: a run that terminates in CHANNEL_UNAVAILABLE
(daemon not running) emits the fail-closed decision but appends zero
audit records, not one. -/
theorem C2_audit_counterexample :
    (handlePreToolUse c2env).output
      = some ⟨"block", some "Serve daemon not running"⟩
    ∧ (handlePreToolUse c2env).audit.length = 0 := by decide

/-- C2 (amended): exactly one audit record carrying timestamp,
approval id, project, tool name, decision, decided_by and reason is
appended for the terminals reached through the wait phase (DECIDED and
TIMED_OUT), and its decision/reason agree with the emitted output; the
CHANNEL_UNAVAILABLE terminal emits its decision without appending any
audit record. -/
theorem C2_audit_exactly_once_amended (env : HookEnv) (m : Nat)
    (hen : env.approval_enabled = true) (hdr : env.dry_run = false)
    (hsr : env.serve_running = true) (hmk : env.mkfifo = .ok)
    (hmsg : env.send_msg_id = some m) :
    (∃ d u r, (handlePreToolUse env).audit
        = [⟨env.timestamp, env.approval_id, env.project, env.tool_name, d, u, r⟩]
      ∧ (handlePreToolUse env).output = some (outputDecision d r))
    ∧ (∀ env' : HookEnv, env'.approval_enabled = true → env'.dry_run = false →
        env'.serve_running = false → (handlePreToolUse env').audit = []) := by
  constructor
  · simp only [handlePreToolUse, hen, hdr, hsr, hmk, hmsg]
    exact ⟨_, _, _, rfl, rfl⟩
  · intro env' hen' hdr' hsr'
    simp [handlePreToolUse, hen', hdr', hsr']

/-- Witness for the amended C2: one audit record on a concrete timed-out
run, none on a concrete daemon-down run. -/
theorem C2_audit_exactly_once_amended_witness :
    (∃ d u r, (handlePreToolUse c1env).audit
        = [⟨c1env.timestamp, c1env.approval_id, c1env.project,
            c1env.tool_name, d, u, r⟩]
      ∧ (handlePreToolUse c1env).output = some (outputDecision d r))
    ∧ (handlePreToolUse c2env).audit = [] := by
  have H := C2_audit_exactly_once_amended c1env 7 rfl rfl rfl rfl rfl
  exact ⟨H.1, H.2 c2env rfl rfl rfl⟩

/-- C3: an approve/block button press from the authorized principal
whose approval id has no persisted record is answered with "Approval
expired or already handled", mutates no state, and signals no pipe; and
since only a pipe signal carries a decision to the hook, the hook's
emitted decision equals whatever single payload was signalled first. -/
theorem C3_second_decision_expired (denv : DaemonEnv) (cb : Callback)
    (store : List (String × ApprovalRecord)) (approval_id decision : String)
    (hauth : cb.sender_id = denv.approval_user)
    (hdata : parseCallbackData cb.data = some (approval_id, decision))
    (habsent : lookupAL approval_id store = none) :
    (handleApprovalCallback denv cb store).answer
      = "Approval expired or already handled"
    ∧ (handleApprovalCallback denv cb store).store = store
    ∧ (handleApprovalCallback denv cb store).signal = none
    ∧ (∀ (henv : HookEnv) (m : Nat) (d : String),
        henv.approval_enabled = true → henv.dry_run = false →
        henv.serve_running = true → henv.mkfifo = .ok →
        henv.send_msg_id = some m → henv.wait_signal = some d →
        (d = "approve" ∨ d = "block") →
        ((handlePreToolUse henv).output.map Emitted.decision) = some d) := by
  refine ⟨?_, ?_, ?_, ?_⟩
  · simp [handleApprovalCallback, hauth, hdata, habsent]
  · simp [handleApprovalCallback, hauth, hdata, habsent]
  · simp [handleApprovalCallback, hauth, hdata, habsent]
  · intro henv m d hen hdr hsr hmk hmsg hwait hd
    cases hr : henv.record_at_wake with
    | none =>
        simp [handlePreToolUse, hen, hdr, hsr, hmk, hmsg, hwait, hr, hd,
          outputDecision]
    | some rec =>
        simp [handlePreToolUse, hen, hdr, hsr, hmk, hmsg, hwait, hr, hd,
          outputDecision]

/-- Witness for C3: an authorized second button press against an empty
approval store is reported expired with no state write and no signal,
and a hook that read the first signal "approve" emits "approve". -/
theorem C3_second_decision_expired_witness :
    (handleApprovalCallback c3denv c3cb []).answer
      = "Approval expired or already handled"
    ∧ (handleApprovalCallback c3denv c3cb []).store = []
    ∧ (handleApprovalCallback c3denv c3cb []).signal = none
    ∧ ((handlePreToolUse { c1env with wait_signal := some "approve" }).output.map
        Emitted.decision) = some "approve" := by
  have H := C3_second_decision_expired c3denv c3cb [] "gone" "approve"
    rfl (by decide) rfl
  exact ⟨H.1, H.2.1, H.2.2.1,
    H.2.2.2 { c1env with wait_signal := some "approve" } 7 "approve"
      rfl rfl rfl rfl rfl rfl (Or.inl rfl)⟩

/-- C6: with approval enabled and outside dry-run, a hook invocation
that finds the serve daemon not running emits
`decision = block, reason = Serve daemon not running` immediately: no
pipe is created, no wait happens, no record is written, and no audit
entry is appended. -/
theorem C6_daemon_down_blocks_immediately (env : HookEnv)
    (hen : env.approval_enabled = true) (hdr : env.dry_run = false)
    (hsr : env.serve_running = false) :
    handlePreToolUse env
      = ⟨some ⟨"block", some "Serve daemon not running"⟩,
          [], false, false, none, false⟩ := by
  simp [handlePreToolUse, hen, hdr, hsr, outputDecision]

/-- Witness for C6 at a concrete daemon-down run. -/
theorem C6_daemon_down_blocks_immediately_witness :
    c6env.serve_running = false
    ∧ handlePreToolUse c6env
      = ⟨some ⟨"block", some "Serve daemon not running"⟩,
          [], false, false, none, false⟩ :=
  ⟨rfl, C6_daemon_down_blocks_immediately c6env rfl rfl rfl⟩

/-! ## Claims C7, C8, C10 — debounce flush, state reads, liveness check -/

/-- C7: flush is a destructive read — on a store holding a batch with
accumulated events, flush returns the summary rendered from the
pre-deletion snapshot and deletes the batch, and an immediately repeated
flush with no intervening accumulate returns nothing. -/
theorem C7_flush_destructive_read (label : String) (b : DebounceBatch)
    (hne : b.events ≠ []) :
    debounceFlush label (some b) = (some (renderFlush label b), none)
    ∧ debounceFlush label (debounceFlush label (some b)).2 = (none, none) := by
  constructor
  · simp [debounceFlush, hne]
  · simp [debounceFlush, hne]

/-- Witness for C7: a batch of three SubagentStop events flushes to the
spec's summary once and to nothing the second time. -/
theorem C7_flush_destructive_read_witness :
    (debounceFlush "demo"
        (some ⟨[("SubagentStop", ⟨3, []⟩)], 100, "10:00", 120, "10:02"⟩)).1
      = some "📋 ×3 subagents finished · demo · <i>10:00–10:02 UTC</i>"
    ∧ debounceFlush "demo"
        (debounceFlush "demo"
          (some ⟨[("SubagentStop", ⟨3, []⟩)], 100, "10:00", 120, "10:02"⟩)).2
      = (none, none) := by
  have H := C7_flush_destructive_read "demo"
    ⟨[("SubagentStop", ⟨3, []⟩)], 100, "10:00", 120, "10:02"⟩ (by decide)
  exact ⟨by rw [H.1]; decide, H.2⟩

/-- C8: the claim ("never raises; empty document on absent, unreadable
or invalid content") is the function's own docstring ("Returns {} on
any error"), but the code violates it: a state file holding non-UTF-8
bytes is invalid content on which the read raises `UnicodeDecodeError`
instead of returning the empty document — the `except` clause catches
only `OSError` and `JSONDecodeError`.  The absent, unreadable and
JSON-invalid cases do return the empty document as claimed. -/
theorem C8_read_state_raises_on_undecodable :
    read_state (0 : Nat) .badBytes = .error "UnicodeDecodeError"
    ∧ read_state (0 : Nat) .absent = .ok 0
    ∧ read_state (0 : Nat) .ioError = .ok 0
    ∧ read_state (0 : Nat) .badJson = .ok 0 :=
  ⟨rfl, rfl, rfl, rfl⟩

/-- C10: the liveness check deletes the PID file and answers false when
the file exists but holds a non-integer or names a process that is not
alive; when it answers true it leaves the file untouched. -/
theorem C10_liveness_check_side_effect (env : ServeEnv) :
    (∀ content, env.pidFileContent = some content →
      pyInt (pyStrip content) = none → is_serve_running env = (false, none))
    ∧ (∀ content pid, env.pidFileContent = some content →
        pyInt (pyStrip content) = some pid → env.alive pid = false →
        is_serve_running env = (false, none))
    ∧ ((is_serve_running env).1 = true →
        (is_serve_running env).2 = env.pidFileContent) := by
  refine ⟨?_, ?_, ?_⟩
  · intro content hc hp
    simp [is_serve_running, hc, hp]
  · intro content pid hc hp ha
    simp [is_serve_running, hc, hp, ha]
  · intro h
    cases hc : env.pidFileContent with
    | none => simp [is_serve_running, hc] at h
    | some content =>
        cases hp : pyInt (pyStrip content) with
        | none => simp [is_serve_running, hc, hp] at h
        | some pid =>
            cases ha : env.alive pid with
            | false => simp [is_serve_running, hc, hp, ha] at h
            | true => simp [is_serve_running, hc, hp, ha]

/-- Witness for C10: a garbage PID file is deleted, a dead PID's file is
deleted, and a live PID's file is kept. -/
theorem C10_liveness_check_side_effect_witness :
    is_serve_running ⟨some "junk", fun _ => true⟩ = (false, none)
    ∧ is_serve_running ⟨some "42", fun _ => false⟩ = (false, none)
    ∧ (is_serve_running ⟨some "42", fun _ => true⟩).2 = some "42" :=
  ⟨(C10_liveness_check_side_effect ⟨some "junk", fun _ => true⟩).1
      "junk" rfl (by decide),
    (C10_liveness_check_side_effect ⟨some "42", fun _ => false⟩).2.1
      "42" 42 rfl (by decide) rfl,
    (C10_liveness_check_side_effect ⟨some "42", fun _ => true⟩).2.2
      (by decide)⟩

end Hookline
